import Mathlib

/-!
Verification of the DeckDock disc/cartridge image identification engine.

The definitions below are a shallow embedding of the Python sources
src/crawler/chd-identify.py and src/crawler/crawler-gui.py.  Byte strings
are modelled as List Nat (one entry per byte); slicing, big/little endian
unpacking and the ASCII string operations used by the code are embedded
explicitly.  The external decompression libraries (zlib, lzma) are
parameters of the embedding: every function that calls them takes the
three decompressors as explicit arguments of type List Nat -> Option (List Nat),
where none models a raised exception and some r a successful return.
-/

set_option maxRecDepth 100000

namespace DeckDock

/-- Python slice data[a:b] for byte strings (a, b nonnegative). -/
def sliceL (l : List Nat) (a b : Nat) : List Nat :=
  (l.drop a).take (b - a)

/-- Big-endian unsigned integer of a byte string, the semantics of
struct.unpack with formats of the family greater-I / greater-Q. -/
def beNat (l : List Nat) : Nat :=
  l.foldl (fun acc b => acc * 256 + b) 0

/-- Little-endian unsigned integer of a byte string, struct.unpack less-I. -/
def leNat (l : List Nat) : Nat :=
  l.foldr (fun b acc => acc * 256 + b) 0

/-- bytes.decode with ascii codec and errors ignore: bytes at or above 128
are dropped, the rest map to the same code points. -/
def asciiIgnore (l : List Nat) : List Nat :=
  l.filter (fun b => b < 128)

/-- str.upper over ASCII code points. -/
def pyUpper (l : List Nat) : List Nat :=
  l.map (fun b => if 97 ≤ b ∧ b ≤ 122 then b - 32 else b)

/-- ASCII whitespace recognised by str.strip and str.split. -/
def isSpaceB (b : Nat) : Bool :=
  b = 32 ∨ b = 9 ∨ b = 10 ∨ b = 13 ∨ b = 11 ∨ b = 12

/-- str.strip with no argument: remove leading and trailing whitespace. -/
def pyStrip (l : List Nat) : List Nat :=
  ((l.dropWhile isSpaceB).reverse.dropWhile isSpaceB).reverse

/-- str.strip with a NUL argument: remove leading and trailing NUL bytes. -/
def stripNulls (l : List Nat) : List Nat :=
  ((l.dropWhile (fun b => b = 0)).reverse.dropWhile (fun b => b = 0)).reverse

/-- Python substring / subbytes containment test (the in operator). -/
def containsSub (pat l : List Nat) : Bool :=
  (List.range (l.length + 1)).any (fun i => sliceL l i (i + pat.length) = pat)

/-- Accumulator pass of str.split with no argument: split on runs of
whitespace, dropping empty words. -/
def splitWSAux : List Nat → List Nat → List (List Nat)
  | [], acc => if acc = [] then [] else [acc.reverse]
  | b :: rest, acc =>
    if isSpaceB b then
      if acc = [] then splitWSAux rest []
      else acc.reverse :: splitWSAux rest []
    else splitWSAux rest (b :: acc)

/-- str.split with no argument. -/
def pySplitWS (l : List Nat) : List (List Nat) :=
  splitWSAux l []

/-- Byte list rendered as a Lean string (all parsed keys are ASCII). -/
def bytesToString (l : List Nat) : String :=
  String.mk (l.map (fun b => Char.ofNat b))

/-! Byte constants used by the sources. -/

def mComprHDB : List Nat := [77, 67, 111, 109, 112, 114, 72, 68]
def cht2B : List Nat := [67, 72, 84, 50]
def cd001B : List Nat := [67, 68, 48, 48, 49]
def nesB : List Nat := [78, 69, 83, 26]
def segaB : List Nat := [83, 69, 71, 65]
def genesisB : List Nat := [71, 69, 78, 69, 83, 73, 83]
def megaDriveB : List Nat := [77, 69, 71, 65, 32, 68, 82, 73, 86, 69]
def saturnB : List Nat := [83, 69, 71, 65, 32, 83, 69, 71, 65, 83, 65, 84, 85, 82, 78]
def segaCd1B : List Nat := [83, 69, 71, 65, 68, 73, 83, 67, 83, 89, 83, 84, 69, 77]
def segaCd2B : List Nat := [83, 69, 71, 65, 32, 68, 73, 83, 67, 83, 89, 83, 84, 69, 77]
def katanaB : List Nat := [83, 69, 71, 65, 32, 83, 69, 71, 65, 75, 65, 84, 65, 78, 65]
def segaDcB : List Nat := [83, 69, 71, 65, 32, 83, 69, 71, 65, 68, 67]
def cdRomB : List Nat := [67, 68, 45, 82, 79, 77]
def playstationB : List Nat := [80, 76, 65, 89, 83, 84, 65, 84, 73, 79, 78]
def pcEngine1B : List Nat := [80, 67, 32, 69, 110, 103, 105, 110, 101]
def pcEngine2B : List Nat := [80, 67, 45, 69, 78, 71, 73, 78, 69]
def boot2B : List Nat := [66, 79, 79, 84, 50]
def bootB : List Nat := [66, 79, 79, 84]
def systemCnfB : List Nat := [83, 89, 83, 84, 69, 77, 46, 67, 78, 70]
def zlibTagB : List Nat := [122, 108, 105, 98]
def cdzlTagB : List Nat := [99, 100, 122, 108]
def lzmaTagB : List Nat := [108, 122, 109, 97]
def cdlzTagB : List Nat := [99, 100, 108, 122]
def noneTagB : List Nat := [110, 111, 110, 101]
def zstdTagB : List Nat := [122, 115, 116, 100]

/-!
Embedding of src/crawler/chd-identify.py.
-/

/-- One parsed CHT2 track record: the dict built from KEY:VALUE words.
Later occurrences of a key overwrite earlier ones, as in a Python dict. -/
abbrev Track := List (String × String)

/-- dict.get with a default, for a dict built by repeated assignment:
the last binding of the key wins. -/
def pyDictGet (fields : Track) (key dflt : String) : String :=
  match (fields.filter (fun p => p.1 = key)).getLast? with
  | some p => p.2
  | none => dflt

/-- Parse the space separated KEY:VALUE text of one CHT2 block
(chd-identify.py lines 51-58). -/
def parseTrackFields (data : List Nat) : Track :=
  let text := pyStrip (asciiIgnore data)
  (pySplitWS text).filterMap (fun w =>
    if w.contains 58 then
      some (bytesToString (w.takeWhile (fun b => b ≠ 58)),
            bytesToString ((w.dropWhile (fun b => b ≠ 58)).drop 1))
    else none)

/-- The metadata chain walk of read_chd_metadata (chd-identify.py lines
35-60), with the for-range fuel made explicit. -/
def metaLoop (file : List Nat) : Nat → Nat → List Track → List Track
  | 0, _, acc => acc
  | fuel + 1, offset, acc =>
    if offset = 0 then acc
    else
      let metaHeader := sliceL file offset (offset + 16)
      if metaHeader.length < 16 then acc
      else
        let tag := sliceL metaHeader 0 4
        let rawLenFlags := beNat (sliceL metaHeader 4 8)
        let dataLength := rawLenFlags % 16777216
        let nextOff := beNat (sliceL metaHeader 8 16)
        let acc2 :=
          if tag = cht2B then
            acc ++ [parseTrackFields
              (sliceL file (offset + 16) (offset + 16 + min dataLength 512))]
          else acc
        metaLoop file fuel nextOff acc2

/-- read_chd_metadata of chd-identify.py, over the bytes of the file. -/
def read_chd_metadata (file : List Nat) : List Track :=
  let header := file.take 124
  if header.length < 124 ∨ sliceL header 0 8 ≠ mComprHDB then []
  else if beNat (sliceL header 12 16) ≠ 5 then []
  else
    let metaOffset := beNat (sliceL header 48 56)
    metaLoop file 100 metaOffset []

/-- identify_from_tracks of chd-identify.py. -/
def identify_from_tracks (tracks : List Track) : Option String :=
  match tracks with
  | [] => none
  | t1 :: _ =>
    let track1Type := pyDictGet t1 "TYPE" ""
    if track1Type = "MODE2_RAW" then some "psx"
    else if track1Type = "MODE1_RAW" ∨ track1Type = "MODE1" then none
    else if tracks.all (fun t => pyDictGet t "TYPE" "" = "AUDIO") then some "3do"
    else none

/-!
Embedding of the identification core of src/crawler/crawler-gui.py.
-/

/-- The directory record starting at position pos of the root directory:
root_dir[pos : pos + root_dir[pos]]. -/
def dirEntryAt (rootDir : List Nat) (pos : Nat) : List Nat :=
  sliceL rootDir pos (pos + rootDir.getD pos 0)

/-- entry[32], the identifier length byte of the record at pos. -/
def dirIdLen (rootDir : List Nat) (pos : Nat) : Nat :=
  (dirEntryAt rootDir pos).getD 32 0

/-- The decoded identifier of the record at pos with everything from the
first semicolon removed and surrounding whitespace stripped, the
file_name of _read_system_cnf. -/
def dirFileName (rootDir : List Nat) (pos : Nat) : List Nat :=
  pyStrip ((asciiIgnore (sliceL (dirEntryAt rootDir pos) 33
    (33 + dirIdLen rootDir pos))).takeWhile (fun b => b ≠ 59))

/-- The byte offset of the extent of the record at pos: its little-endian
LBA at entry[2:6] times the 2048-byte sector size. -/
def dirFileOffset (rootDir : List Nat) (pos : Nat) : Nat :=
  leNat (sliceL (dirEntryAt rootDir pos) 2 6) * 2048

/-- The little-endian data length at entry[10:14] of the record at pos. -/
def dirFileLen (rootDir : List Nat) (pos : Nat) : Nat :=
  leNat (sliceL (dirEntryAt rootDir pos) 10 14)

/-- The while loop of _read_system_cnf (crawler-gui.py lines 423-458) that
walks the root directory records, with the loop given explicit fuel.  One
unit of fuel is spent per iteration; the wrapper passes more fuel than the
loop can consume, since the position strictly increases each iteration. -/
def walkLoop (data rootDir : List Nat) : Nat → Nat → Option (List Nat)
  | 0, _ => none
  | fuel + 1, pos =>
    if pos < rootDir.length then
      let entryLen := rootDir.getD pos 0
      if entryLen = 0 then
        let nextSector := (pos / 2048 + 1) * 2048
        if rootDir.length ≤ nextSector then none
        else walkLoop data rootDir fuel nextSector
      else if rootDir.length < pos + entryLen then none
      else if (dirEntryAt rootDir pos).length < 34 then
        walkLoop data rootDir fuel (pos + entryLen)
      else if 0 < dirIdLen rootDir pos ∧
          pos + 33 + dirIdLen rootDir pos ≤ pos + entryLen then
        if pyUpper (dirFileName rootDir pos) = systemCnfB then
          if data.length < dirFileOffset rootDir pos + dirFileLen rootDir pos then none
          else some (asciiIgnore (sliceL data (dirFileOffset rootDir pos)
            (dirFileOffset rootDir pos + dirFileLen rootDir pos)))
        else walkLoop data rootDir fuel (pos + entryLen)
      else walkLoop data rootDir fuel (pos + entryLen)
    else none

/-- _read_system_cnf of crawler-gui.py (lines 391-460). -/
def _read_system_cnf (data : List Nat) : Option (List Nat) :=
  if data.length < 0x8000 + 0x100 then none
  else
    let pvd := data.drop 0x8000
    if sliceL pvd 0 1 ≠ [1] ∨ sliceL pvd 1 6 ≠ cd001B then none
    else
      let rootRecord := sliceL pvd 0x9C (0x9C + 34)
      if rootRecord.length < 34 then none
      else
        let rootLba := leNat (sliceL rootRecord 2 6)
        let rootLen := leNat (sliceL rootRecord 10 14)
        let rootOffset := rootLba * 2048
        if data.length < rootOffset + rootLen then none
        else
          let rootDir := sliceL data rootOffset (rootOffset + rootLen)
          walkLoop data rootDir (rootDir.length + 1) 0

/-- _playstation_version of crawler-gui.py (lines 463-486). -/
def _playstation_version (data : List Nat) : String :=
  let pvd := data.drop 0x8000
  let fallback :=
    let systemId := pyStrip (asciiIgnore (sliceL pvd 8 40))
    if containsSub [50] systemId then "ps2"
    else
      let publisher := pyStrip (asciiIgnore (sliceL pvd 0x8E (0x8E + 128)))
      if containsSub [50] publisher ∧ containsSub playstationB (pyUpper publisher) then "ps2"
      else "psx"
  match _read_system_cnf data with
  | some s =>
    if s ≠ [] then
      if containsSub boot2B s then "ps2"
      else if containsSub bootB s then "psx"
      else fallback
    else fallback
  | none => fallback

/-- The trailing PC Engine check of _system_from_header_bytes
(crawler-gui.py lines 556-560), reached when no earlier check returned. -/
def pcEngineCheck (data : List Nat) : Option String :=
  if 0x100 ≤ data.length ∧
      (containsSub pcEngine1B (data.take 0x100) ∨
        containsSub pcEngine2B (data.take 0x100)) then some "pcengine"
  else none

/-- The sector-16 volume descriptor block of _system_from_header_bytes
(crawler-gui.py lines 541-554): attempted only for windows strictly longer
than 0x8240 bytes, and falling through to the PC Engine check when it does
not return. -/
def pvdCheck (data : List Nat) : Option String :=
  if 0x8000 + 0x240 < data.length then
    let pvd := data.drop 0x8000
    if sliceL pvd 0 1 = [1] ∧ sliceL pvd 1 6 = cd001B ∧
        containsSub playstationB (pyStrip (asciiIgnore (sliceL pvd 8 40))) then
      some (_playstation_version data)
    else if sliceL pvd 0 1 = [255] then some "cdi"
    else pcEngineCheck data
  else pcEngineCheck data

/-- _system_from_header_bytes of crawler-gui.py (lines 489-560). -/
def _system_from_header_bytes (data : List Nat) : Option String :=
  if data.length < 16 then none
  else if sliceL data 0 4 = nesB then some "nes"
  else if 4 ≤ data.length ∧
      (beNat (sliceL data 0 4) = 0x80371240 ∨ beNat (sliceL data 0 4) = 0x37804012 ∨
        beNat (sliceL data 0 4) = 0x40123780) then some "n64"
  else if 0x120 ≤ data.length ∧ sliceL data 0x100 0x104 = segaB ∧
      (containsSub genesisB (sliceL data 0x100 0x120) ∨
        containsSub megaDriveB (sliceL data 0x100 0x120)) then some "genesis"
  else if 0x20 ≤ data.length ∧ beNat (sliceL data 0x1C 0x20) = 0xC2339F3D then some "gc"
  else if 0x1C ≤ data.length ∧ beNat (sliceL data 0x18 0x1C) = 0x5D1C9EA3 then some "wii"
  else if sliceL data 0 15 = saturnB then some "saturn"
  else if sliceL data 0 14 = segaCd1B ∨ sliceL data 0 15 = segaCd2B then some "segacd"
  else if sliceL data 0 15 = katanaB then some "dreamcast"
  else if 11 ≤ data.length ∧ sliceL data 0 11 = segaDcB then some "dreamcast"
  else if 0x2E ≤ data.length ∧ sliceL data 0 4 = [1, 0, 0, 0] ∧
      sliceL data 0x28 0x2E = cdRomB then some "3do"
  else pvdCheck data

/-- The parsed CHD v5 header returned by _parse_chd_header. -/
structure ChdInfo where
  version : Nat
  hunk_bytes : Nat
  hunk_count : Nat
  map_offset : Nat
  compressors : List (List Nat)
  logical_bytes : Nat
deriving DecidableEq

/-- _parse_chd_header of crawler-gui.py (lines 563-591). -/
def _parse_chd_header (b : List Nat) : Option ChdInfo :=
  if b.length < 124 ∨ sliceL b 0 8 ≠ mComprHDB then none
  else if beNat (sliceL b 12 16) ≠ 5 then none
  else
    let compressors := (List.range 4).filterMap (fun i =>
      let c := sliceL b (16 + i * 4) (20 + i * 4)
      if c = [0, 0, 0, 0] then none else some c)
    let logicalBytes := beNat (sliceL b 32 40)
    let mapOffset := beNat (sliceL b 40 48)
    let hunkBytes := beNat (sliceL b 56 60)
    let hunkCount := if hunkBytes ≠ 0 then (logicalBytes + hunkBytes - 1) / hunkBytes else 0
    some {
      version := 5
      hunk_bytes := hunkBytes
      hunk_count := hunkCount
      map_offset := mapOffset
      compressors := compressors
      logical_bytes := logicalBytes
    }

/-- The retry of the final lines of _decompress_chd_hunk: try raw inflate
(zlib.decompress with wbits -15) and then standard zlib (wbits 15). -/
def inflateFallback (zR zS : List Nat → Option (List Nat)) (c : List Nat) :
    Option (List Nat) :=
  match zR c with
  | some r => some r
  | none => zS c

/-- _decompress_chd_hunk of crawler-gui.py (lines 594-618).  The zlib raw,
zlib standard and lzma decompressors are parameters; none models a raised
exception caught by the except clauses. -/
def _decompress_chd_hunk (zR zS lz : List Nat → Option (List Nat))
    (data : List Nat) (offset length : Nat) (compressor : List Nat) :
    Option (List Nat) :=
  let compressed := sliceL data offset (offset + length)
  if compressed = [] then none
  else
    let tag := stripNulls (asciiIgnore compressor)
    let primary : Option (List Nat) :=
      if tag = zlibTagB ∨ tag = cdzlTagB then zR compressed
      else if tag = lzmaTagB ∨ tag = cdlzTagB then lz compressed
      else if tag = noneTagB then some compressed
      else none
    match primary with
    | some r => some r
    | none => inflateFallback zR zS compressed

/-- The map entry for hunk index idx, raw[entry_offset : entry_offset+12]
(crawler-gui.py line 655). -/
def mapEntryAt (raw : List Nat) (mapOffset idx : Nat) : List Nat :=
  sliceL raw (mapOffset + idx * 12) (mapOffset + idx * 12 + 12)

/-- entry[0] of the map entry for hunk idx, the compression selector. -/
def entryCompType (raw : List Nat) (mapOffset idx : Nat) : Nat :=
  (mapEntryAt raw mapOffset idx).getD 0 0

/-- (entry[1] shifted 16) or (entry[2] shifted 8) or entry[3], the 24-bit
compressed length of the map entry for hunk idx. -/
def entryCompLength (raw : List Nat) (mapOffset idx : Nat) : Nat :=
  (((mapEntryAt raw mapOffset idx).getD 1 0) <<< 16) |||
    (((mapEntryAt raw mapOffset idx).getD 2 0) <<< 8) |||
    (mapEntryAt raw mapOffset idx).getD 3 0

/-- The 48-bit big-endian source offset in bytes 4..9 of the map entry. -/
def entryHunkOffset (raw : List Nat) (mapOffset idx : Nat) : Nat :=
  beNat (sliceL (mapEntryAt raw mapOffset idx) 4 10)

/-- One iteration of the hunk materialization loop of _read_chd_sector_data
(crawler-gui.py lines 650-674): some d means d is appended to the window
and the loop continues, none means the loop breaks at this entry. -/
def hunkStep (zR zS lz : List Nat → Option (List Nat)) (raw : List Nat)
    (compressors : List (List Nat)) (hunkBytes mapOffset idx : Nat) :
    Option (List Nat) :=
  if raw.length < mapOffset + idx * 12 + 12 then none
  else
    let compType := entryCompType raw mapOffset idx
    let compLength := entryCompLength raw mapOffset idx
    let hunkOffset := entryHunkOffset raw mapOffset idx
    if raw.length < hunkOffset + compLength then none
    else if compType = 4 then some (sliceL raw hunkOffset (hunkOffset + hunkBytes))
    else if compType = 5 then none
    else if compType < compressors.length then
      match _decompress_chd_hunk zR zS lz raw hunkOffset compLength
          (compressors.getD compType []) with
      | some d => if d = [] then none else some d
      | none => none
    else none

/-- The for loop of _read_chd_sector_data over hunk indices; the fuel is
the exact python range bound min(hunks_needed, hunk_count). -/
def hunkLoop (zR zS lz : List Nat → Option (List Nat)) (raw : List Nat)
    (compressors : List (List Nat)) (hunkBytes mapOffset needed : Nat) :
    Nat → Nat → List Nat → List Nat
  | 0, _, acc => acc
  | fuel + 1, idx, acc =>
    match hunkStep zR zS lz raw compressors hunkBytes mapOffset idx with
    | none => acc
    | some d =>
      let acc2 := acc ++ d
      if needed ≤ acc2.length then acc2
      else hunkLoop zR zS lz raw compressors hunkBytes mapOffset needed fuel (idx + 1) acc2

/-- _read_chd_sector_data of crawler-gui.py (lines 621-679), over the bytes
already read from the file (the python raw). -/
def _read_chd_sector_data (zR zS lz : List Nat → Option (List Nat))
    (raw : List Nat) : Option (List Nat) :=
  match _parse_chd_header raw with
  | none => none
  | some info =>
    if info.hunk_bytes = 0 ∨ info.compressors = [] then none
    else
      let needed := 0x20000
      let hunksNeeded := (needed + info.hunk_bytes - 1) / info.hunk_bytes
      let w := hunkLoop zR zS lz raw info.compressors info.hunk_bytes info.map_offset
        needed (min hunksNeeded info.hunk_count) 0 []
      if 16 ≤ w.length then some w else none

/-!
Helper lemmas.
-/

/-- If the file bytes contain no CHT2 tag anywhere, the metadata chain walk
appends nothing. -/
theorem metaLoop_no_cht2 (file : List Nat)
    (h : ∀ off, sliceL file off (off + 4) ≠ cht2B) :
    ∀ fuel offset acc, metaLoop file fuel offset acc = acc := by
  intro fuel
  induction fuel with
  | zero => intro offset acc; rfl
  | succ n ih =>
    intro offset acc
    unfold metaLoop
    by_cases h0 : offset = 0
    · simp [h0]
    · have htag : sliceL (sliceL file offset (offset + 16)) 0 4 =
          sliceL file offset (offset + 4) := by
        simp [sliceL, List.take_take]
      have hne : sliceL (sliceL file offset (offset + 16)) 0 4 ≠ cht2B := by
        rw [htag]; exact h offset
      by_cases hlen : (sliceL file offset (offset + 16)).length < 16
      · simp [h0, hlen]
      · simp [h0, hlen, hne, ih]

/-!
Claim theorems.
-/

/-- C7: for a non-empty track list, a first track of type MODE2_RAW yields
psx, a first track of type MODE1_RAW or MODE1 yields no match, and a list
whose tracks are all of type AUDIO yields 3do. -/
theorem C7_track_type_heuristics (t1 : Track) (rest : List Track) :
    (pyDictGet t1 "TYPE" "" = "MODE2_RAW" →
      identify_from_tracks (t1 :: rest) = some "psx") ∧
    ((pyDictGet t1 "TYPE" "" = "MODE1_RAW" ∨ pyDictGet t1 "TYPE" "" = "MODE1") →
      identify_from_tracks (t1 :: rest) = none) ∧
    ((∀ t ∈ t1 :: rest, pyDictGet t "TYPE" "" = "AUDIO") →
      identify_from_tracks (t1 :: rest) = some "3do") := by
  refine ⟨fun h => ?_, fun h => ?_, fun h => ?_⟩
  · simp [identify_from_tracks, h]
  · rcases h with h | h <;> simp [identify_from_tracks, h]
  · have h1 : pyDictGet t1 "TYPE" "" = "AUDIO" := h t1 (List.mem_cons_self t1 rest)
    have hall : (t1 :: rest).all (fun t => pyDictGet t "TYPE" "" = "AUDIO") = true := by
      rw [List.all_eq_true]
      intro t ht
      exact decide_eq_true (h t ht)
    simp [identify_from_tracks, h1, hall]

/-- C7 witness: concrete track lists exercising the audio and the
mode-1-raw branches. -/
theorem C7_track_type_heuristics_witness :
    identify_from_tracks [[("TYPE", "AUDIO")]] = some "3do" ∧
    identify_from_tracks [[("TYPE", "MODE1_RAW")]] = none := by
  constructor
  · exact (C7_track_type_heuristics [("TYPE", "AUDIO")] []).2.2 (by decide)
  · exact (C7_track_type_heuristics [("TYPE", "MODE1_RAW")] []).2.1 (Or.inl (by decide))

/-- C10: read_chd_metadata returns the empty track list for a wrong magic,
a truncated header, a version other than 5, or a file with no CHT2 block,
and identify_from_tracks maps the empty list to no classification. -/
theorem C10_empty_tracks_unknown (file : List Nat) :
    (file.length < 124 ∨ sliceL file 0 8 ≠ mComprHDB → read_chd_metadata file = []) ∧
    (beNat (sliceL file 12 16) ≠ 5 → read_chd_metadata file = []) ∧
    ((∀ off, sliceL file off (off + 4) ≠ cht2B) → read_chd_metadata file = []) ∧
    identify_from_tracks [] = none := by
  have hlen : (file.take 124).length < 124 ↔ file.length < 124 := by
    simp [List.length_take]
  have hmag : sliceL (file.take 124) 0 8 = sliceL file 0 8 := by
    simp [sliceL, List.take_take]
  have hver : sliceL (file.take 124) 12 16 = sliceL file 12 16 := by
    simp [sliceL, List.drop_take, List.take_take]
  refine ⟨fun h => ?_, fun h => ?_, fun h => ?_, rfl⟩
  · unfold read_chd_metadata
    rw [if_pos]
    rw [hlen, hmag]
    exact h
  · unfold read_chd_metadata
    by_cases hg : (file.take 124).length < 124 ∨ sliceL (file.take 124) 0 8 ≠ mComprHDB
    · rw [if_pos hg]
    · rw [if_neg hg, if_pos]
      rw [hver]
      exact h
  · unfold read_chd_metadata
    by_cases hg : (file.take 124).length < 124 ∨ sliceL (file.take 124) 0 8 ≠ mComprHDB
    · rw [if_pos hg]
    · rw [if_neg hg]
      by_cases hv : beNat (sliceL (file.take 124) 12 16) ≠ 5
      · rw [if_pos hv]
      · rw [if_neg hv]
        exact metaLoop_no_cht2 file h 100 _ []

/-- C10 witness: the empty file is rejected and classified as unknown. -/
theorem C10_empty_tracks_unknown_witness :
    read_chd_metadata [] = [] ∧ identify_from_tracks (read_chd_metadata []) = none := by
  have h := C10_empty_tracks_unknown []
  have h1 : read_chd_metadata [] = [] := h.1 (Or.inl (by decide))
  exact ⟨h1, by rw [h1]; exact h.2.2.2⟩

/-- C9: a window of at most 0x8240 bytes is never classified as a
PlayStation family or CD-i system, because the volume descriptor checks
require the window to be strictly longer than 0x8240 bytes. -/
theorem C9_short_window_no_pvd_systems (data : List Nat) (h : data.length ≤ 0x8240) :
    _system_from_header_bytes data ≠ some "psx" ∧
    _system_from_header_bytes data ≠ some "ps2" ∧
    _system_from_header_bytes data ≠ some "cdi" := by
  have hpvd : ¬ (0x8000 + 0x240 < data.length) := by omega
  have hpc : pcEngineCheck data ≠ some "psx" ∧ pcEngineCheck data ≠ some "ps2" ∧
      pcEngineCheck data ≠ some "cdi" := by
    unfold pcEngineCheck
    split_ifs <;> exact ⟨by simp, by simp, by simp⟩
  have hp : pvdCheck data = pcEngineCheck data := by
    unfold pvdCheck
    rw [if_neg hpvd]
  unfold _system_from_header_bytes
  by_cases h1 : data.length < 16
  · rw [if_pos h1]; exact ⟨by simp, by simp, by simp⟩
  rw [if_neg h1]
  by_cases h2 : sliceL data 0 4 = nesB
  · rw [if_pos h2]; decide
  rw [if_neg h2]
  by_cases h3 : 4 ≤ data.length ∧
      (beNat (sliceL data 0 4) = 0x80371240 ∨ beNat (sliceL data 0 4) = 0x37804012 ∨
        beNat (sliceL data 0 4) = 0x40123780)
  · rw [if_pos h3]; decide
  rw [if_neg h3]
  by_cases h4 : 0x120 ≤ data.length ∧ sliceL data 0x100 0x104 = segaB ∧
      (containsSub genesisB (sliceL data 0x100 0x120) = true ∨
        containsSub megaDriveB (sliceL data 0x100 0x120) = true)
  · rw [if_pos h4]; decide
  rw [if_neg h4]
  by_cases h5 : 0x20 ≤ data.length ∧ beNat (sliceL data 0x1C 0x20) = 0xC2339F3D
  · rw [if_pos h5]; decide
  rw [if_neg h5]
  by_cases h6 : 0x1C ≤ data.length ∧ beNat (sliceL data 0x18 0x1C) = 0x5D1C9EA3
  · rw [if_pos h6]; decide
  rw [if_neg h6]
  by_cases h7 : sliceL data 0 15 = saturnB
  · rw [if_pos h7]; decide
  rw [if_neg h7]
  by_cases h8 : sliceL data 0 14 = segaCd1B ∨ sliceL data 0 15 = segaCd2B
  · rw [if_pos h8]; decide
  rw [if_neg h8]
  by_cases h9 : sliceL data 0 15 = katanaB
  · rw [if_pos h9]; decide
  rw [if_neg h9]
  by_cases h10 : 11 ≤ data.length ∧ sliceL data 0 11 = segaDcB
  · rw [if_pos h10]; decide
  rw [if_neg h10]
  by_cases h11 : 0x2E ≤ data.length ∧ sliceL data 0 4 = [1, 0, 0, 0] ∧
      sliceL data 0x28 0x2E = cdRomB
  · rw [if_pos h11]; decide
  rw [if_neg h11, hp]
  exact hpc

/-- C9 witness: a window of exactly 0x8240 bytes carrying a CD001 volume
descriptor at offset 0x8000 is still not classified as a disc system. -/
theorem C9_short_window_no_pvd_systems_witness :
    _system_from_header_bytes
      (List.replicate 0x8000 0 ++ (1 :: cd001B) ++ List.replicate 570 0) ≠ some "psx" ∧
    _system_from_header_bytes
      (List.replicate 0x8000 0 ++ (1 :: cd001B) ++ List.replicate 570 0) ≠ some "ps2" ∧
    _system_from_header_bytes
      (List.replicate 0x8000 0 ++ (1 :: cd001B) ++ List.replicate 570 0) ≠ some "cdi" := by
  have hl : (List.replicate 0x8000 0 ++ (1 :: cd001B) ++ List.replicate 570 0).length
      = 33344 := by
    rw [List.length_append, List.length_append, List.length_replicate,
      List.length_replicate]
    rfl
  exact C9_short_window_no_pvd_systems _ (le_of_eq hl)

/-- C6: the cartridge checks at offset 0 precede every disc check: a window
carrying the NES magic, or an N64 magic word, at offset 0 is classified as
that cartridge system even when a disc banner appears at a later offset. -/
theorem C6_cartridge_checks_first (data : List Nat) (hlen : 16 ≤ data.length)
    (hbanner : containsSub pcEngine1B (data.take 0x100) = true ∨
      sliceL data 0x8001 0x8006 = cd001B) :
    (sliceL data 0 4 = nesB → _system_from_header_bytes data = some "nes") ∧
    ((beNat (sliceL data 0 4) = 0x80371240 ∨ beNat (sliceL data 0 4) = 0x37804012 ∨
        beNat (sliceL data 0 4) = 0x40123780) →
      _system_from_header_bytes data = some "n64") := by
  have hl : ¬ (data.length < 16) := by omega
  constructor
  · intro hnes
    unfold _system_from_header_bytes
    rw [if_neg hl, if_pos hnes]
  · intro hn64
    have hnes : sliceL data 0 4 ≠ nesB := by
      intro heq
      rw [heq] at hn64
      rcases hn64 with h1 | h1 | h1 <;> exact absurd h1 (by decide)
    unfold _system_from_header_bytes
    rw [if_neg hl, if_neg hnes, if_pos ⟨by omega, hn64⟩]

/-- C6 witness: NES magic at offset 0 with a PC Engine disc banner later in
the window resolves to the cartridge system. -/
theorem C6_cartridge_checks_first_witness :
    _system_from_header_bytes (nesB ++ pcEngine1B ++ [0, 0, 0]) = some "nes" := by
  exact (C6_cartridge_checks_first (nesB ++ pcEngine1B ++ [0, 0, 0])
    (by decide) (Or.inl (by decide))).1 (by decide)

/-- A synthetic 124-byte CHD v5 header: magic, header length 124, version 5,
one declared compressor with tag none, the given logical size and hunk size
fields, map offset 124. -/
def chdHeaderBase (logical hunkb : List Nat) : List Nat :=
  mComprHDB ++ [0, 0, 0, 124] ++ [0, 0, 0, 5] ++ noneTagB ++ List.replicate 12 0 ++
  logical ++ [0, 0, 0, 0, 0, 0, 0, 124] ++ List.replicate 8 0 ++ hunkb ++
  List.replicate 64 0

/-- A version-5 header declaring hunk_bytes = 0 and logical_bytes = 16. -/
def degenHeaderC8 : List Nat := chdHeaderBase [0, 0, 0, 0, 0, 0, 0, 16] [0, 0, 0, 0]

/-- The header record _parse_chd_header builds for degenHeaderC8. -/
def degenInfoC8 : ChdInfo :=
  { version := 5, hunk_bytes := 0, hunk_count := 0, map_offset := 124,
    compressors := [noneTagB], logical_bytes := 16 }

/-- C8 counterexample: a version-5 header claiming hunk_bytes = 0 is not
rejected by _parse_chd_header; the parser returns a header record (with
hunk_count = 0) instead of the failure outcome. -/
theorem C8_counterexample :
    _parse_chd_header degenHeaderC8 = some degenInfoC8 ∧ degenInfoC8.hunk_bytes = 0 := by
  exact ⟨by decide, rfl⟩

/-- C8 amended: _parse_chd_header returns the failure outcome on a missing
magic, a truncated header, or a version other than 5; a version-5 header
claiming hunk_bytes = 0 is accepted with hunk_count = 0, the ceiling
division being guarded, and it is _read_chd_sector_data that then rejects
the container. -/
theorem C8_header_validation (b : List Nat) (info : ChdInfo)
    (zR zS lz : List Nat → Option (List Nat)) :
    (b.length < 124 ∨ sliceL b 0 8 ≠ mComprHDB → _parse_chd_header b = none) ∧
    (beNat (sliceL b 12 16) ≠ 5 → _parse_chd_header b = none) ∧
    (_parse_chd_header b = some info → info.hunk_bytes = 0 → info.hunk_count = 0) ∧
    (_parse_chd_header b = some info → info.hunk_bytes = 0 →
      _read_chd_sector_data zR zS lz b = none) := by
  refine ⟨fun h => ?_, fun h => ?_, fun hp hz => ?_, fun hp hz => ?_⟩
  · unfold _parse_chd_header
    rw [if_pos h]
  · unfold _parse_chd_header
    by_cases hg : b.length < 124 ∨ sliceL b 0 8 ≠ mComprHDB
    · rw [if_pos hg]
    · rw [if_neg hg, if_pos h]
  · unfold _parse_chd_header at hp
    by_cases hg : b.length < 124 ∨ sliceL b 0 8 ≠ mComprHDB
    · rw [if_pos hg] at hp
      exact absurd hp (by simp)
    · rw [if_neg hg] at hp
      by_cases hv : beNat (sliceL b 12 16) ≠ 5
      · rw [if_pos hv] at hp
        exact absurd hp (by simp)
      · rw [if_neg hv] at hp
        have heq := Option.some.inj hp
        rw [← heq] at hz ⊢
        simp only at hz ⊢
        rw [if_neg]
        simp [hz]
  · unfold _read_chd_sector_data
    rw [hp]
    simp [hz]

/-- C8 witness: the degenerate header is accepted with hunk_count zero and
then rejected by the hunk materializer. -/
theorem C8_header_validation_witness :
    degenInfoC8.hunk_count = 0 ∧
    _read_chd_sector_data (fun _ => none) (fun _ => none) (fun _ => none)
      degenHeaderC8 = none := by
  have h := C8_header_validation degenHeaderC8 degenInfoC8
    (fun _ => none) (fun _ => none) (fun _ => none)
  have hp : _parse_chd_header degenHeaderC8 = some degenInfoC8 := by decide
  exact ⟨h.2.2.1 hp rfl, h.2.2.2 hp rfl⟩

/-- C3 counterexample: it is not the case that every unrecognized codec tag
produces a failure outcome.  When the stored bytes happen to be a valid
stream for the raw-deflate fallback (here modelled by a raw inflater that
succeeds, as zlib does on a well-formed deflate stream), the hunk bytes are
returned even though the tag is unrecognized. -/
theorem C3_counterexample :
    ¬ (∀ (zR zS lz : List Nat → Option (List Nat)) (data : List Nat)
        (off len : Nat) (comp : List Nat),
        stripNulls (asciiIgnore comp) ∉ [zlibTagB, cdzlTagB, lzmaTagB, cdlzTagB, noneTagB] →
        _decompress_chd_hunk zR zS lz data off len comp = none) := by
  intro hclaim
  have h := hclaim (fun c => some c) (fun _ => none) (fun _ => none)
    [1, 2, 3, 4] 0 4 zstdTagB (by decide)
  have h2 : _decompress_chd_hunk (fun c => some c) (fun _ => none) (fun _ => none)
      [1, 2, 3, 4] 0 4 zstdTagB = some [1, 2, 3, 4] := by decide
  rw [h2] at h
  exact Option.noConfusion h

/-- C3 amended: _decompress_chd_hunk never raises; an unrecognized tag is
not a distinct outcome but falls through to the raw-deflate retry followed
by a standard-zlib retry, returning the failure outcome only when both
fail, and a recognized codec whose decompression fails is retried the same
way before giving up. -/
theorem C3_codec_dispatch_fallback (zR zS lz : List Nat → Option (List Nat))
    (data comp : List Nat) (off len : Nat) :
    (sliceL data off (off + len) = [] →
      _decompress_chd_hunk zR zS lz data off len comp = none) ∧
    (sliceL data off (off + len) ≠ [] →
      stripNulls (asciiIgnore comp) ∉ [zlibTagB, cdzlTagB, lzmaTagB, cdlzTagB, noneTagB] →
      _decompress_chd_hunk zR zS lz data off len comp =
        inflateFallback zR zS (sliceL data off (off + len))) ∧
    (sliceL data off (off + len) ≠ [] →
      (stripNulls (asciiIgnore comp) = zlibTagB ∨ stripNulls (asciiIgnore comp) = cdzlTagB) →
      zR (sliceL data off (off + len)) = none →
      _decompress_chd_hunk zR zS lz data off len comp =
        zS (sliceL data off (off + len))) ∧
    (sliceL data off (off + len) ≠ [] →
      (stripNulls (asciiIgnore comp) = lzmaTagB ∨ stripNulls (asciiIgnore comp) = cdlzTagB) →
      lz (sliceL data off (off + len)) = none →
      _decompress_chd_hunk zR zS lz data off len comp =
        inflateFallback zR zS (sliceL data off (off + len))) := by
  refine ⟨fun h => ?_, fun h hn => ?_, fun h ht hz => ?_, fun h ht hl => ?_⟩
  · simp only [_decompress_chd_hunk]
    rw [if_pos h]
  · simp only [List.mem_cons, List.not_mem_nil, or_false, not_or] at hn
    obtain ⟨h1, h2, h3, h4, h5⟩ := hn
    simp only [_decompress_chd_hunk]
    rw [if_neg h, if_neg (by simp [h1, h2] :
        ¬ (stripNulls (asciiIgnore comp) = zlibTagB ∨
          stripNulls (asciiIgnore comp) = cdzlTagB)),
      if_neg (by simp [h3, h4] :
        ¬ (stripNulls (asciiIgnore comp) = lzmaTagB ∨
          stripNulls (asciiIgnore comp) = cdlzTagB)),
      if_neg h5]
  · simp only [_decompress_chd_hunk]
    rw [if_neg h, if_pos ht, hz]
    simp [inflateFallback, hz]
  · simp only [_decompress_chd_hunk]
    have hnz : ¬ (stripNulls (asciiIgnore comp) = zlibTagB ∨
        stripNulls (asciiIgnore comp) = cdzlTagB) := by
      rcases ht with ht | ht <;> rw [ht] <;> decide
    rw [if_neg h, if_neg hnz, if_pos ht, hl]

/-- C3 witness: an unrecognized tag whose payload fails both fallback
interpretations yields the failure outcome rather than an exception. -/
theorem C3_codec_dispatch_fallback_witness :
    _decompress_chd_hunk (fun _ => none) (fun _ => none) (fun _ => none)
      [9, 9] 0 2 zstdTagB = none := by
  have h := (C3_codec_dispatch_fallback (fun _ => none) (fun _ => none) (fun _ => none)
    [9, 9] zstdTagB 0 2).2.1 (by decide) (by decide)
  simpa [inflateFallback] using h

/-- The everywhere-failing decompressor, modelling a zlib or lzma call that
raises on every input. -/
def cNone : List Nat → Option (List Nat) := fun _ => none

/-- A breaking step makes the loop return the accumulator unchanged. -/
theorem hunkLoop_stop (zR zS lz : List Nat → Option (List Nat)) (raw : List Nat)
    (compressors : List (List Nat)) (hunkBytes mapOffset idx : Nat)
    (h : hunkStep zR zS lz raw compressors hunkBytes mapOffset idx = none)
    (needed fuel : Nat) (acc : List Nat) :
    hunkLoop zR zS lz raw compressors hunkBytes mapOffset needed (fuel + 1) idx acc = acc := by
  simp only [hunkLoop, h]

/-- The loop only ever appends: its result extends the accumulator. -/
theorem hunkLoop_extends_acc (zR zS lz : List Nat → Option (List Nat)) (raw : List Nat)
    (compressors : List (List Nat)) (hunkBytes mapOffset needed : Nat) :
    ∀ fuel idx acc, ∃ t,
      hunkLoop zR zS lz raw compressors hunkBytes mapOffset needed fuel idx acc = acc ++ t := by
  intro fuel
  induction fuel with
  | zero =>
    intro idx acc
    exact ⟨[], by simp [hunkLoop]⟩
  | succ n ih =>
    intro idx acc
    cases h : hunkStep zR zS lz raw compressors hunkBytes mapOffset idx with
    | none => exact ⟨[], by simp [hunkLoop, h]⟩
    | some d =>
      by_cases hb : needed ≤ (acc ++ d).length
      · refine ⟨d, ?_⟩
        simp only [hunkLoop, h]
        rw [if_pos hb]
      · obtain ⟨t, ht⟩ := ih (idx + 1) (acc ++ d)
        refine ⟨d ++ t, ?_⟩
        simp only [hunkLoop, h]
        rw [if_neg hb, ht, List.append_assoc]

/-- The container of the C2 counterexample: hunk_bytes = 32, one hunk, a
literal-uncompressed map entry with compressed length 0 whose source data
runs past the end of the available bytes (only 17 of 32 bytes remain). -/
def rawC2 : List Nat :=
  chdHeaderBase [0, 0, 0, 0, 0, 0, 0, 32] [0, 0, 0, 32] ++
  [4, 0, 0, 0, 0, 0, 0, 0, 0, 136, 0, 0] ++ List.replicate 17 9

/-- C2 counterexample: a literal-uncompressed entry does not always append
exactly hunk_bytes bytes: on rawC2 the parsed hunk size is 32 but the
returned window holds only the 17 available bytes. -/
theorem C2_counterexample :
    (_read_chd_sector_data cNone cNone cNone rawC2).map List.length = some 17 ∧
    (_parse_chd_header rawC2).map ChdInfo.hunk_bytes = some 32 := by
  exact ⟨by decide, by decide⟩

/-- C2 amended: a literal-uncompressed entry (selector 4) appends the raw
bytes raw[source_offset : source_offset + hunk_bytes], which is exactly
hunk_bytes bytes whenever that range lies within the available bytes; a
self-referencing entry (selector 5), or a selector at or beyond the
declared codec count (including the parent-reference selector), stops the
loop; a map entry or compressed payload extending past the available bytes
stops the loop with the accumulated prefix; and the wrapper returns the
materialized prefix as a success only when it holds at least 16 bytes,
never raising. -/
theorem C2_hunk_map_entries (zR zS lz : List Nat → Option (List Nat))
    (raw : List Nat) (compressors : List (List Nat))
    (hunkBytes mapOffset needed fuel idx : Nat) (acc : List Nat) :
    (raw.length < mapOffset + idx * 12 + 12 →
      hunkLoop zR zS lz raw compressors hunkBytes mapOffset needed (fuel + 1) idx acc
        = acc) ∧
    (mapOffset + idx * 12 + 12 ≤ raw.length →
      raw.length < entryHunkOffset raw mapOffset idx + entryCompLength raw mapOffset idx →
      hunkLoop zR zS lz raw compressors hunkBytes mapOffset needed (fuel + 1) idx acc
        = acc) ∧
    (mapOffset + idx * 12 + 12 ≤ raw.length →
      entryHunkOffset raw mapOffset idx + entryCompLength raw mapOffset idx ≤ raw.length →
      entryCompType raw mapOffset idx = 4 →
      entryHunkOffset raw mapOffset idx + hunkBytes ≤ raw.length →
      hunkStep zR zS lz raw compressors hunkBytes mapOffset idx =
        some (sliceL raw (entryHunkOffset raw mapOffset idx)
          (entryHunkOffset raw mapOffset idx + hunkBytes)) ∧
      (sliceL raw (entryHunkOffset raw mapOffset idx)
        (entryHunkOffset raw mapOffset idx + hunkBytes)).length = hunkBytes) ∧
    (mapOffset + idx * 12 + 12 ≤ raw.length →
      entryHunkOffset raw mapOffset idx + entryCompLength raw mapOffset idx ≤ raw.length →
      entryCompType raw mapOffset idx = 5 →
      hunkLoop zR zS lz raw compressors hunkBytes mapOffset needed (fuel + 1) idx acc
        = acc) ∧
    (mapOffset + idx * 12 + 12 ≤ raw.length →
      entryHunkOffset raw mapOffset idx + entryCompLength raw mapOffset idx ≤ raw.length →
      entryCompType raw mapOffset idx ≠ 4 →
      entryCompType raw mapOffset idx ≠ 5 →
      compressors.length ≤ entryCompType raw mapOffset idx →
      hunkLoop zR zS lz raw compressors hunkBytes mapOffset needed (fuel + 1) idx acc
        = acc) ∧
    (∀ w, _read_chd_sector_data zR zS lz raw = some w → 16 ≤ w.length) := by
  refine ⟨fun h1 => ?_, fun h1 h2 => ?_, fun h1 h2 h3 h4 => ?_,
    fun h1 h2 h3 => ?_, fun h1 h2 h3 h4 h5 => ?_, fun w hw => ?_⟩
  · refine hunkLoop_stop zR zS lz raw compressors hunkBytes mapOffset idx ?_ needed fuel acc
    simp only [hunkStep]
    rw [if_pos h1]
  · refine hunkLoop_stop zR zS lz raw compressors hunkBytes mapOffset idx ?_ needed fuel acc
    simp only [hunkStep]
    rw [if_neg (Nat.not_lt.mpr h1), if_pos h2]
  · constructor
    · simp only [hunkStep]
      rw [if_neg (Nat.not_lt.mpr h1), if_neg (Nat.not_lt.mpr h2), if_pos h3]
    · simp only [sliceL, List.length_take, List.length_drop]
      omega
  · refine hunkLoop_stop zR zS lz raw compressors hunkBytes mapOffset idx ?_ needed fuel acc
    simp only [hunkStep]
    rw [if_neg (Nat.not_lt.mpr h1), if_neg (Nat.not_lt.mpr h2),
      if_neg (by rw [h3]; decide), if_pos h3]
  · refine hunkLoop_stop zR zS lz raw compressors hunkBytes mapOffset idx ?_ needed fuel acc
    simp only [hunkStep]
    rw [if_neg (Nat.not_lt.mpr h1), if_neg (Nat.not_lt.mpr h2), if_neg h3, if_neg h4,
      if_neg (Nat.not_lt.mpr h5)]
  · cases hp : _parse_chd_header raw with
    | none =>
      simp only [_read_chd_sector_data, hp] at hw
      exact absurd hw (by simp)
    | some info =>
      simp only [_read_chd_sector_data, hp] at hw
      by_cases hg : info.hunk_bytes = 0 ∨ info.compressors = []
      · rw [if_pos hg] at hw
        exact absurd hw (by simp)
      · rw [if_neg hg] at hw
        by_cases h16 : 16 ≤ (hunkLoop zR zS lz raw info.compressors info.hunk_bytes
            info.map_offset 0x20000
            (min ((0x20000 + info.hunk_bytes - 1) / info.hunk_bytes) info.hunk_count)
            0 []).length
        · rw [if_pos h16] at hw
          rw [← Option.some.inj hw]
          exact h16
        · rw [if_neg h16] at hw
          exact absurd hw (by simp)

/-- C2 witness: a truncated map entry stops the loop with the accumulator
unchanged, and an in-range literal-uncompressed entry materializes exactly
the hunk-size slice at its source offset. -/
theorem C2_hunk_map_entries_witness :
    hunkLoop cNone cNone cNone [] [] 0 0 0 (0 + 1) 0 [5] = [5] ∧
    (hunkStep cNone cNone cNone [4, 0, 0, 0, 0, 0, 0, 0, 0, 12, 0, 0, 7, 7, 7, 7] [] 4 0 0 =
      some (sliceL [4, 0, 0, 0, 0, 0, 0, 0, 0, 12, 0, 0, 7, 7, 7, 7] 12 16) ∧
      (sliceL [4, 0, 0, 0, 0, 0, 0, 0, 0, 12, 0, 0, 7, 7, 7, 7] 12 16).length = 4) := by
  constructor
  · exact (C2_hunk_map_entries cNone cNone cNone [] [] 0 0 0 0 0 [5]).1 (by decide)
  · exact (C2_hunk_map_entries cNone cNone cNone
      [4, 0, 0, 0, 0, 0, 0, 0, 0, 12, 0, 0, 7, 7, 7, 7] [] 4 0 0 0 0 []).2.2.1
      (by decide) (by decide) (by decide) (by decide)

/-- C1: for a version-5 container whose header parses with a declared
codec list, a hunk size of at least 16 bytes and at least one hunk, and
whose first map entry materializes (under whichever supported codec the
entry selects, the decompressors being parameters) to the first hunk of
the underlying image, _read_chd_sector_data returns a logical window whose
first 16 bytes equal the first 16 bytes of the image. -/
theorem C1_first_sector_roundtrip (zR zS lz : List Nat → Option (List Nat))
    (raw image : List Nat) (info : ChdInfo)
    (hparse : _parse_chd_header raw = some info)
    (hhb : 16 ≤ info.hunk_bytes)
    (hcomp : info.compressors ≠ [])
    (hcount : 0 < info.hunk_count)
    (hstep : hunkStep zR zS lz raw info.compressors info.hunk_bytes info.map_offset 0 =
      some (sliceL image 0 info.hunk_bytes))
    (hlen : info.hunk_bytes ≤ image.length) :
    ∃ w, _read_chd_sector_data zR zS lz raw = some w ∧
      w.take 16 = image.take 16 := by
  have hg : ¬ (info.hunk_bytes = 0 ∨ info.compressors = []) := by
    push_neg
    exact ⟨by omega, hcomp⟩
  have hlen0 : (sliceL image 0 info.hunk_bytes).length = info.hunk_bytes := by
    simp only [sliceL, List.length_take, List.length_drop]
    omega
  have htake : (sliceL image 0 info.hunk_bytes).take 16 = image.take 16 := by
    simp only [sliceL, List.drop_zero, Nat.sub_zero, List.take_take]
    rw [min_eq_left hhb]
  have hfuel : 0 < min ((0x20000 + info.hunk_bytes - 1) / info.hunk_bytes) info.hunk_count := by
    refine lt_min ?_ hcount
    rw [Nat.lt_iff_add_one_le, Nat.zero_add, Nat.one_le_div_iff (by omega)]
    omega
  obtain ⟨f, hf⟩ : ∃ f,
      min ((0x20000 + info.hunk_bytes - 1) / info.hunk_bytes) info.hunk_count = f + 1 :=
    ⟨min ((0x20000 + info.hunk_bytes - 1) / info.hunk_bytes) info.hunk_count - 1, by omega⟩
  simp only [_read_chd_sector_data, hparse]
  rw [if_neg hg, hf]
  simp only [hunkLoop, hstep, List.nil_append]
  by_cases hb : (0x20000 : Nat) ≤ (sliceL image 0 info.hunk_bytes).length
  · rw [if_pos hb, if_pos (by omega : (16 : Nat) ≤ (sliceL image 0 info.hunk_bytes).length)]
    exact ⟨sliceL image 0 info.hunk_bytes, rfl, htake⟩
  · rw [if_neg hb]
    obtain ⟨t, ht⟩ := hunkLoop_extends_acc zR zS lz raw info.compressors info.hunk_bytes
      info.map_offset 0x20000 f 1 (sliceL image 0 info.hunk_bytes)
    rw [ht]
    have h16 : (16 : Nat) ≤ (sliceL image 0 info.hunk_bytes ++ t).length := by
      rw [List.length_append]
      omega
    rw [if_pos h16]
    refine ⟨sliceL image 0 info.hunk_bytes ++ t, rfl, ?_⟩
    rw [List.take_append_of_le_length (by omega), htake]

/-- The underlying image of the C1 witness container. -/
def imageC1 : List Nat := [1, 2, 3, 4, 5, 6, 7, 8, 9, 10, 11, 12, 13, 14, 15, 16]

/-- The C1 witness container: a valid version-5 header declaring the codec
tag none, hunk size 16, one hunk, map at offset 124, and the 16 image
bytes stored verbatim at offset 136. -/
def rawC1 : List Nat :=
  chdHeaderBase [0, 0, 0, 0, 0, 0, 0, 16] [0, 0, 0, 16] ++
  [0, 0, 0, 16, 0, 0, 0, 0, 0, 136, 0, 0] ++ imageC1

/-- The header record parsed from rawC1. -/
def infoC1 : ChdInfo :=
  { version := 5, hunk_bytes := 16, hunk_count := 1, map_offset := 124,
    compressors := [noneTagB], logical_bytes := 16 }

/-- C1 witness: decoding the concrete container rawC1 yields a window whose
first 16 bytes are the image bytes. -/
theorem C1_first_sector_roundtrip_witness :
    ∃ w, _read_chd_sector_data cNone cNone cNone rawC1 = some w ∧
      w.take 16 = imageC1.take 16 := by
  exact C1_first_sector_roundtrip cNone cNone cNone rawC1 imageC1 infoC1
    (by decide) (by decide) (by decide) (by decide) (by decide) (by decide)

/-- C4: the root directory walk treats a zero length byte as sector
padding, skipping to the next 2048-byte boundary and continuing rather
than terminating; a record whose identifier, after dropping everything
from the first semicolon and comparing case-insensitively, names
SYSTEM.CNF returns the extent of that record; and a record with any other name
is skipped and the walk continues at the next record. -/
theorem C4_directory_walk (data rootDir : List Nat) (fuel pos : Nat) :
    (pos < rootDir.length → rootDir.getD pos 0 = 0 →
      (pos / 2048 + 1) * 2048 < rootDir.length →
      walkLoop data rootDir (fuel + 1) pos =
        walkLoop data rootDir fuel ((pos / 2048 + 1) * 2048)) ∧
    (pos < rootDir.length → rootDir.getD pos 0 ≠ 0 →
      pos + rootDir.getD pos 0 ≤ rootDir.length →
      34 ≤ (dirEntryAt rootDir pos).length →
      0 < dirIdLen rootDir pos →
      pos + 33 + dirIdLen rootDir pos ≤ pos + rootDir.getD pos 0 →
      pyUpper (dirFileName rootDir pos) = systemCnfB →
      dirFileOffset rootDir pos + dirFileLen rootDir pos ≤ data.length →
      walkLoop data rootDir (fuel + 1) pos =
        some (asciiIgnore (sliceL data (dirFileOffset rootDir pos)
          (dirFileOffset rootDir pos + dirFileLen rootDir pos)))) ∧
    (pos < rootDir.length → rootDir.getD pos 0 ≠ 0 →
      pos + rootDir.getD pos 0 ≤ rootDir.length →
      34 ≤ (dirEntryAt rootDir pos).length →
      0 < dirIdLen rootDir pos →
      pos + 33 + dirIdLen rootDir pos ≤ pos + rootDir.getD pos 0 →
      pyUpper (dirFileName rootDir pos) ≠ systemCnfB →
      walkLoop data rootDir (fuel + 1) pos =
        walkLoop data rootDir fuel (pos + rootDir.getD pos 0)) := by
  refine ⟨fun h1 h2 h3 => ?_, fun h1 h2 h3 h4 h5 h6 h7 h8 => ?_,
    fun h1 h2 h3 h4 h5 h6 h7 => ?_⟩
  · simp only [walkLoop]
    rw [if_pos h1, if_pos h2, if_neg (Nat.not_le.mpr h3)]
  · simp only [walkLoop]
    rw [if_pos h1, if_neg h2, if_neg (Nat.not_lt.mpr h3), if_neg (Nat.not_lt.mpr h4),
      if_pos ⟨h5, h6⟩, if_pos h7, if_neg (Nat.not_lt.mpr h8)]
  · simp only [walkLoop]
    rw [if_pos h1, if_neg h2, if_neg (Nat.not_lt.mpr h3), if_neg (Nat.not_lt.mpr h4),
      if_pos ⟨h5, h6⟩, if_neg h7]

/-- The root directory record of the C4 witness: a 46-byte record whose
identifier is the 12 bytes of system.cnf;1 in lower case with a version
suffix, extent LBA 0 and extent length 4. -/
def rootDirC4 : List Nat :=
  [46, 0] ++ [0, 0, 0, 0] ++ [0, 0, 0, 0] ++ [4, 0, 0, 0] ++ List.replicate 18 0 ++
  [12] ++ [115, 121, 115, 116, 101, 109, 46, 99, 110, 102, 59, 49] ++ [0]

/-- C4 witness: a zero length byte at the start of a padded sector makes
the walk continue at the next 2048-byte boundary, and a record named
system.cnf;1 in lower case with a version suffix is matched and its
4-byte extent returned. -/
theorem C4_directory_walk_witness :
    walkLoop [] (List.replicate 2049 0) (4 + 1) 0 =
      walkLoop [] (List.replicate 2049 0) 4 2048 ∧
    walkLoop [72, 69, 89, 33] rootDirC4 (0 + 1) 0 =
      some (asciiIgnore (sliceL [72, 69, 89, 33] (dirFileOffset rootDirC4 0)
        (dirFileOffset rootDirC4 0 + dirFileLen rootDirC4 0))) := by
  constructor
  · have h := (C4_directory_walk [] (List.replicate 2049 0) 4 0).1
    have h1 : (0 : Nat) < (List.replicate 2049 (0 : Nat)).length := by
      rw [List.length_replicate]
      omega
    have h2 : (List.replicate 2049 (0 : Nat)).getD 0 0 = 0 := by rfl
    have h3 : ((0 : Nat) / 2048 + 1) * 2048 < (List.replicate 2049 (0 : Nat)).length := by
      rw [List.length_replicate]
      omega
    exact h h1 h2 h3
  · exact (C4_directory_walk [72, 69, 89, 33] rootDirC4 0 0).2.1 (by decide) (by decide)
      (by decide) (by decide) (by decide) (by decide) (by decide) (by decide)

/-- C5: a located SYSTEM.CNF containing BOOT2 classifies as ps2; one
containing BOOT but not BOOT2 classifies as psx; and when SYSTEM.CNF
cannot be located the fallbacks run in order: a 2 in the volume descriptor
system-identifier field gives ps2, else a 2 in the publisher field
together with PLAYSTATION in its upper-cased text gives ps2, else psx. -/
theorem C5_playstation_classification (data s : List Nat) :
    (_read_system_cnf data = some s → containsSub boot2B s = true →
      _playstation_version data = "ps2") ∧
    (_read_system_cnf data = some s → containsSub boot2B s = false →
      containsSub bootB s = true → _playstation_version data = "psx") ∧
    (_read_system_cnf data = none →
      containsSub [50] (pyStrip (asciiIgnore (sliceL (data.drop 0x8000) 8 40))) = true →
      _playstation_version data = "ps2") ∧
    (_read_system_cnf data = none →
      containsSub [50] (pyStrip (asciiIgnore (sliceL (data.drop 0x8000) 8 40))) = false →
      containsSub [50]
        (pyStrip (asciiIgnore (sliceL (data.drop 0x8000) 0x8E (0x8E + 128)))) = true →
      containsSub playstationB
        (pyUpper (pyStrip (asciiIgnore (sliceL (data.drop 0x8000) 0x8E (0x8E + 128)))))
        = true →
      _playstation_version data = "ps2") ∧
    (_read_system_cnf data = none →
      containsSub [50] (pyStrip (asciiIgnore (sliceL (data.drop 0x8000) 8 40))) = false →
      ¬ (containsSub [50]
          (pyStrip (asciiIgnore (sliceL (data.drop 0x8000) 0x8E (0x8E + 128)))) = true ∧
        containsSub playstationB
          (pyUpper (pyStrip (asciiIgnore (sliceL (data.drop 0x8000) 0x8E (0x8E + 128)))))
          = true) →
      _playstation_version data = "psx") := by
  refine ⟨fun hr h2 => ?_, fun hr h2 hb => ?_, fun hr h3 => ?_,
    fun hr h3 hp hps => ?_, fun hr h3 hp => ?_⟩
  · have hne : s ≠ [] := by
      intro he
      rw [he] at h2
      exact absurd h2 (by decide)
    simp only [_playstation_version, hr]
    rw [if_pos hne, if_pos h2]
  · have hne : s ≠ [] := by
      intro he
      rw [he] at hb
      exact absurd hb (by decide)
    simp only [_playstation_version, hr]
    rw [if_pos hne, if_neg (by simp [h2]), if_pos hb]
  · simp only [_playstation_version, hr]
    rw [if_pos h3]
  · simp only [_playstation_version, hr]
    rw [if_neg (by simp [h3]), if_pos ⟨hp, hps⟩]
  · simp only [_playstation_version, hr]
    rw [if_neg (by simp [h3]), if_neg hp]

/-- C5 witness: with no SYSTEM.CNF and no fallback marker present, the
classification defaults to psx. -/
theorem C5_playstation_classification_witness :
    _playstation_version [] = "psx" := by
  exact (C5_playstation_classification [] []).2.2.2.2 (by decide) (by decide) (by decide)

end DeckDock
